import Mathlib

/-!
Shallow embedding of the tree-protection-zone application (`src/main.py`):
the geometry policy, the GeoJSON feature normalizer, the paginated
ArcGIS identifier fetcher, the batched feature fetcher and the
"Load Madison Tree Data" orchestration, together with theorems that
settle the specification claims about them.

Modelling conventions:
* Python floats are modelled as rationals (`ℚ`); the arithmetic in the
  source is exact on the values of interest.
* The remote service is a parameter: an identifier query is a function
  from the requested `resultOffset` to either a transport failure
  (`Except.error ()`, covering `requests.exceptions.RequestException`
  and response-processing exceptions) or the decoded `objectIds` list
  (a missing or falsy `objectIds` key is modelled as the empty list,
  which the source treats identically).
* The unbounded Python `while True` loop receives an explicit `fuel`
  bound; every theorem supplies enough fuel that the bound is never hit,
  so the modelled result is the loop's result.
* Observable effects that the claims talk about (which offsets were
  requested, which id chunks were sent, which progress fractions were
  evaluated) are returned as explicit traces.
-/

namespace TreeProtection

/-- Model of a Python property value as stored in a GeoJSON `properties`
dict: a number, a string, an int, or `None`. -/
inductive PropVal where
  | num (q : ℚ)
  | str (s : String)
  | int (n : Int)
  | null
deriving DecidableEq

/-- Model of one raw GeoJSON feature: `coordinates` is
`feature[geometry][coordinates]` (`none` when the `geometry` or
`coordinates` key is missing), `properties` is the property dict,
modelled as an association list. -/
structure RawFeature where
  coordinates : Option (List ℚ)
  properties : List (String × PropVal)
deriving DecidableEq

/-- The error raised when a feature has no usable coordinate pair
(in Python: the `KeyError`/`IndexError` escaping `process_geojson_data`). -/
inductive NormError where
  | MalformedGeometry
deriving DecidableEq

/-- One row of the DataFrame built by `process_geojson_data`
(src/main.py lines 44-53). -/
structure NormalizedTreeRecord where
  longitude : ℚ
  latitude : ℚ
  diameter : PropVal
  species_common : PropVal
  species_botanical : PropVal
  status : PropVal
  site_id : PropVal
  object_id : PropVal
deriving DecidableEq

/-- Model of the nested dict lookup `props.get(k1, props.get(k2, d))`
used for every field of the normalized record. -/
def dictGet2 (props : List (String × PropVal)) (k1 k2 : String) (d : PropVal) : PropVal :=
  match props.lookup k1 with
  | some v => v
  | none =>
    match props.lookup k2 with
    | some v => v
    | none => d

/-- Normalization of a single feature: the body of the loop in
`process_geojson_data` (src/main.py lines 39-53).  `coords[0]` and
`coords[1]` require a coordinate list of length at least two; otherwise
the Python code raises, modelled as `MalformedGeometry`. -/
def normalizeFeature (f : RawFeature) : Except NormError NormalizedTreeRecord :=
  match f.coordinates with
  | none => .error .MalformedGeometry
  | some coords =>
    match coords with
    | c0 :: c1 :: _ =>
      .ok ⟨c0, c1,
        dictGet2 f.properties "DIAMETER" "diameter" (.num 0),
        dictGet2 f.properties "SPP_COM" "species_common" (.str "Unknown"),
        dictGet2 f.properties "SPP_BOT" "species_botanical" (.str "Unknown"),
        dictGet2 f.properties "STATUS" "status" (.str "Unknown"),
        dictGet2 f.properties "site_id" "OBJECTID" (.str "Unknown"),
        dictGet2 f.properties "OBJECTID" "object_id" .null⟩
    | _ => .error .MalformedGeometry

/-- Model of `process_geojson_data` (src/main.py lines 36-55): the
features are processed in order in a single loop; the first exception
aborts the whole call (no partial DataFrame is produced). -/
def process_geojson_data : List RawFeature → Except NormError (List NormalizedTreeRecord)
  | [] => .ok []
  | f :: rest =>
    match normalizeFeature f with
    | .error e => .error e
    | .ok r =>
      match process_geojson_data rest with
      | .error e => .error e
      | .ok rs => .ok (r :: rs)

/-- Model of `calculate_protection_radius` (src/main.py lines 21-29). -/
def calculate_protection_radius (diameter : ℚ) : ℚ :=
  if diameter ≤ 5 then 5 else 5 + (diameter - 5)

/-- Model of `feet_to_meters` (src/main.py lines 32-33). -/
def feet_to_meters (feet : ℚ) : ℚ :=
  feet * (3048 / 10000)

/-- Observable outcome of one run of `get_object_ids`: the returned
identifier list (the Python return value) and the trace of
`resultOffset` values actually requested from the service, in order. -/
structure IdFetchRun where
  ids : List Int
  offsets : List Nat
deriving DecidableEq

/-- Model of the `while True` loop of
`ArcGISPaginatedClient.get_object_ids` (src/main.py lines 109-149).
One iteration issues one request at `offset`; a transport failure or a
missing/empty `objectIds` list breaks the loop; a non-empty batch is
appended to the accumulator, a batch shorter than `batch_size` breaks,
and otherwise `offset` advances by the number of identifiers actually
received.  `fuel` bounds the number of iterations: the Python loop is
unbounded, and every theorem below supplies enough fuel that the bound
is never reached. -/
def get_object_ids_loop (svc : Nat → Except Unit (List Int)) (batch_size : Nat) :
    Nat → Nat → List Int → List Nat → IdFetchRun
  | 0, _, acc, offs => ⟨acc, offs⟩
  | fuel + 1, offset, acc, offs =>
    match svc offset with
    | .error _ => ⟨acc, offs ++ [offset]⟩
    | .ok batch =>
      match batch with
      | [] => ⟨acc, offs ++ [offset]⟩
      | b :: bs =>
        if (b :: bs).length < batch_size then
          ⟨acc ++ (b :: bs), offs ++ [offset]⟩
        else
          get_object_ids_loop svc batch_size fuel (offset + (b :: bs).length)
            (acc ++ (b :: bs)) (offs ++ [offset])

/-- Model of `ArcGISPaginatedClient.get_object_ids`
(src/main.py lines 101-152): run the pagination loop from offset 0 with
an empty accumulator. -/
def get_object_ids (svc : Nat → Except Unit (List Int)) (batch_size fuel : Nat) : IdFetchRun :=
  get_object_ids_loop svc batch_size fuel 0 [] []

/-- Honest mock service holding `ids`: a request at `offset` with page
size `batch_size` returns the next at most `batch_size` identifiers. -/
def pageService (ids : List Int) (batch_size : Nat) : Nat → Except Unit (List Int) :=
  fun offset => .ok ((ids.drop offset).take batch_size)

/-- Mock service that behaves like `pageService` for offsets below
`cutoff` and raises a transport failure at every offset from `cutoff`
on. -/
def failingPageService (ids : List Int) (batch_size cutoff : Nat) :
    Nat → Except Unit (List Int) :=
  fun offset =>
    if offset < cutoff then .ok ((ids.drop offset).take batch_size) else .error ()

/-- src/main.py line 92. -/
def FEATURE_BATCH_SIZE : Nat := 100

/-- src/main.py line 91. -/
def OBJECT_ID_BATCH_SIZE : Nat := 1000

/-- Model of the chunking comprehension in `get_features_by_ids`
(src/main.py lines 159-160):
`[object_ids[i:i + C] for i in range(0, len(object_ids), C)]`, with the
stepped range `0, C, 2C, ...` rendered as `j * C` for
`j < ceil (len / C)`. -/
def chunkList (C : Nat) (l : List α) : List (List α) :=
  (List.range ((l.length + C - 1) / C)).map (fun j => (l.drop (j * C)).take C)

/-- Observable outcome of one run of `get_features_by_ids`: the
returned GeoJSON dict (`collectionType` is the `type` entry, `features`
the accumulated feature list), the trace of id chunks actually sent as
requests, and the trace of progress fractions evaluated, each recorded
as the exact pair (numerator `i + 1`, denominator `len(id_chunks)`). -/
structure FeatureFetchRun (α : Type) where
  collectionType : String
  features : List α
  requested : List (List Int)
  progress : List (Nat × Nat)
deriving DecidableEq

/-- Model of the chunk loop of `get_features_by_ids`
(src/main.py lines 165-200).  Every chunk is requested; a transport
failure is caught and the loop continues with the next chunk (no
features appended, no progress update); a response without a
`features` key (`Except.ok none`) appends nothing but still updates
progress; a successful response appends its features and updates
progress. -/
def features_loop (svc : Nat → List Int → Except Unit (Option (List α))) (total : Nat) :
    List (Nat × List Int) → List α × List (List Int) × List (Nat × Nat)
  | [] => ([], [], [])
  | (i, chunk) :: rest =>
    let r := features_loop svc total rest
    match svc i chunk with
    | .error _ => (r.1, chunk :: r.2.1, r.2.2)
    | .ok none => (r.1, chunk :: r.2.1, (i + 1, total) :: r.2.2)
    | .ok (some fs) => (fs ++ r.1, chunk :: r.2.1, (i + 1, total) :: r.2.2)

/-- Model of `ArcGISPaginatedClient.get_features_by_ids`
(src/main.py lines 154-209): chunk the identifiers, run the loop over
the enumerated chunks, and wrap the accumulated features in a
FeatureCollection dict. -/
def get_features_by_ids (svc : Nat → List Int → Except Unit (Option (List α)))
    (object_ids : List Int) : FeatureFetchRun α :=
  let id_chunks := chunkList FEATURE_BATCH_SIZE object_ids
  let r := features_loop svc id_chunks.length id_chunks.enum
  ⟨"FeatureCollection", r.1, r.2.1, r.2.2⟩

/-- Model of the "Load Madison Tree Data" handler
(src/main.py lines 259-276 and 312-328): fetch all object ids; when the
id list is empty only a warning is shown and nothing is stored
(`none`); otherwise the features are fetched and the resulting
collection is stored (`some`; the stored dict always has a `features`
key, so the `if madison_data and features in madison_data` guard always
takes the success branch). -/
def load_madison_tree_data (svcIds : Nat → Except Unit (List Int))
    (svcF : Nat → List Int → Except Unit (Option (List α))) (fuel : Nat) :
    Option (FeatureFetchRun α) :=
  let object_ids := (get_object_ids svcIds OBJECT_ID_BATCH_SIZE fuel).ids
  if object_ids.isEmpty then none
  else some (get_features_by_ids svcF object_ids)

/-- Observation helper: the features contributed by one chunk response
(a failed request or a response without a `features` key contributes
nothing). -/
def respFeatures : Except Unit (Option (List α)) → List α
  | .ok (some fs) => fs
  | _ => []

/-- Observation helper: whether a chunk response was received without a
transport failure (progress is updated exactly in that case). -/
def respOk : Except Unit (Option (List α)) → Bool
  | .error _ => false
  | .ok _ => true

lemma range_map_mul_shift (off B k : Nat) :
    (List.range (k + 1)).map (fun j => off + j * B)
      = off :: (List.range k).map (fun j => off + B + j * B) := by
  rw [List.range_succ_eq_map, List.map_cons, List.map_map]
  have hf : ((fun j => off + j * B) ∘ Nat.succ) = fun j => off + B + j * B := by
    funext j
    simp only [Function.comp_apply, Nat.succ_mul]
    ring
  rw [hf]
  norm_num

/-- Behaviour of the pagination loop against the honest mock: starting
at any offset with enough fuel, it appends exactly the identifiers from
that offset on, and requests precisely the offsets
`offset, offset + B, offset + 2B, ...`, one per page, including the
final short or empty page. -/
lemma get_object_ids_loop_page (ids : List Int) (B : Nat) (hB : 0 < B) :
    ∀ (fuel offset : Nat) (acc : List Int) (offs : List Nat),
      (ids.length - offset) / B + 1 ≤ fuel →
      get_object_ids_loop (pageService ids B) B fuel offset acc offs =
        ⟨acc ++ ids.drop offset,
         offs ++ (List.range ((ids.length - offset) / B + 1)).map
           (fun j => offset + j * B)⟩ := by
  intro fuel
  induction fuel with
  | zero =>
    intro offset acc offs h
    exact absurd h (Nat.not_succ_le_zero _)
  | succ f ih =>
    intro offset acc offs h
    by_cases hend : ids.length ≤ offset
    · have hdrop : ids.drop offset = [] := List.drop_eq_nil_iff.2 hend
      have hsub : ids.length - offset = 0 := by omega
      simp [get_object_ids_loop, pageService, hdrop, hsub, List.range_succ]
    · push_neg at hend
      have hlen : (ids.drop offset).length = ids.length - offset := by simp
      by_cases hshort : ids.length - offset < B
      · have htake : (ids.drop offset).take B = ids.drop offset :=
          List.take_of_length_le (by omega)
        have hdiv : (ids.length - offset) / B = 0 := Nat.div_eq_of_lt hshort
        obtain ⟨x, xs, hxs⟩ : ∃ x xs, ids.drop offset = x :: xs := by
          cases hd : ids.drop offset with
          | nil =>
            rw [hd] at hlen
            simp at hlen
            omega
          | cons x xs => exact ⟨x, xs, rfl⟩
        have hlt2 : xs.length + 1 < B := by
          have := hlen
          rw [hxs] at this
          simp at this
          omega
        rw [hxs] at htake
        simp [get_object_ids_loop, pageService, htake, hdiv, hxs, hlt2,
          List.range_succ]
      · push_neg at hshort
        have htlen : ((ids.drop offset).take B).length = B := by
          rw [List.length_take, hlen]
          omega
        obtain ⟨x, xs, hxs⟩ : ∃ x xs, (ids.drop offset).take B = x :: xs := by
          cases hd : (ids.drop offset).take B with
          | nil =>
            rw [hd] at htlen
            simp at htlen
            omega
          | cons x xs => exact ⟨x, xs, rfl⟩
        have hxlen2 : xs.length + 1 = B := by
          have := htlen
          rw [hxs] at this
          simpa using this
        have hnotlt : ¬ xs.length + 1 < B := by omega
        have hstep : get_object_ids_loop (pageService ids B) B (f + 1) offset acc offs
            = get_object_ids_loop (pageService ids B) B f (offset + B)
                (acc ++ (x :: xs)) (offs ++ [offset]) := by
          simp [get_object_ids_loop, pageService, hxs, hnotlt, hxlen2]
        have hdivstep : (ids.length - offset) / B = (ids.length - (offset + B)) / B + 1 := by
          have h1 : ids.length - offset = (ids.length - (offset + B)) + B := by omega
          rw [h1, Nat.add_div_right _ hB]
        have hih := ih (offset + B) (acc ++ (x :: xs)) (offs ++ [offset]) (by omega)
        rw [hstep, hih]
        have hids : (acc ++ (x :: xs)) ++ ids.drop (offset + B) = acc ++ ids.drop offset := by
          rw [List.append_assoc]
          congr 1
          rw [← hxs, ← List.drop_drop, List.take_append_drop]
        have hoffs : (offs ++ [offset]) ++ (List.range ((ids.length - (offset + B)) / B + 1)).map
              (fun j => offset + B + j * B)
            = offs ++ (List.range ((ids.length - offset) / B + 1)).map
              (fun j => offset + j * B) := by
          rw [List.append_assoc]
          congr 1
          rw [hdivstep]
          conv_rhs => rw [range_map_mul_shift]
          rfl
        rw [IdFetchRun.mk.injEq]
        exact ⟨hids, hoffs⟩

/-- Behaviour of the pagination loop against the mock that fails at
offset `m * B` after `m` full pages: the loop keeps the `m` full pages
and stops at the failing request. -/
lemma get_object_ids_loop_failing (ids : List Int) (B m : Nat) (hB : 0 < B)
    (hm : m * B ≤ ids.length) :
    ∀ (fuel i : Nat) (acc : List Int) (offs : List Nat), i ≤ m → m - i < fuel →
      get_object_ids_loop (failingPageService ids B (m * B)) B fuel (i * B) acc offs =
        ⟨acc ++ (ids.drop (i * B)).take ((m - i) * B),
         offs ++ (List.range (m - i + 1)).map (fun j => i * B + j * B)⟩ := by
  intro fuel
  induction fuel with
  | zero =>
    intro i acc offs hi hf
    omega
  | succ f ih =>
    intro i acc offs hi hf
    by_cases him : i = m
    · subst him
      have hsvc : failingPageService ids B (i * B) (i * B) = .error () := by
        simp [failingPageService]
      simp [get_object_ids_loop, hsvc, List.range_succ]
    · have hilt : i < m := by omega
      have hofflt : i * B < m * B := by
        exact Nat.mul_lt_mul_of_lt_of_le hilt (le_refl B) hB
      have hsvc : failingPageService ids B (m * B) (i * B)
          = .ok ((ids.drop (i * B)).take B) := by
        simp [failingPageService, hofflt]
      have hIB : i * B + B ≤ ids.length := by
        have h1 : (i + 1) * B ≤ m * B := Nat.mul_le_mul_right B (by omega)
        rw [Nat.succ_mul] at h1
        omega
      have htlen : ((ids.drop (i * B)).take B).length = B := by
        rw [List.length_take, List.length_drop]
        omega
      obtain ⟨x, xs, hxs⟩ : ∃ x xs, (ids.drop (i * B)).take B = x :: xs := by
        cases hd : (ids.drop (i * B)).take B with
        | nil =>
          rw [hd] at htlen
          simp at htlen
          omega
        | cons x xs => exact ⟨x, xs, rfl⟩
      have hxlen2 : xs.length + 1 = B := by
        have := htlen
        rw [hxs] at this
        simpa using this
      have hnotlt : ¬ xs.length + 1 < B := by omega
      have hstep : get_object_ids_loop (failingPageService ids B (m * B)) B (f + 1)
            (i * B) acc offs
          = get_object_ids_loop (failingPageService ids B (m * B)) B f ((i + 1) * B)
              (acc ++ (x :: xs)) (offs ++ [i * B]) := by
        rw [Nat.succ_mul]
        simp [get_object_ids_loop, hsvc, hxs, hnotlt, hxlen2]
      have hih := ih (i + 1) (acc ++ (x :: xs)) (offs ++ [i * B]) (by omega) (by omega)
      rw [hstep, hih]
      have hsub : m - (i + 1) + 1 = m - i := by omega
      have hids : (acc ++ (x :: xs)) ++ (ids.drop ((i + 1) * B)).take ((m - (i + 1)) * B)
          = acc ++ (ids.drop (i * B)).take ((m - i) * B) := by
        rw [List.append_assoc]
        congr 1
        have hmi : (m - i) * B = B + (m - (i + 1)) * B := by
          have : m - i = (m - (i + 1)) + 1 := by omega
          rw [this, Nat.succ_mul]
          ring
        rw [hmi, List.take_add, ← hxs]
        congr 1
        rw [List.drop_drop]
        congr 1
        rw [Nat.succ_mul]
      have hoffs : (offs ++ [i * B]) ++ (List.range (m - (i + 1) + 1)).map
            (fun j => (i + 1) * B + j * B)
          = offs ++ (List.range (m - i + 1)).map (fun j => i * B + j * B) := by
        rw [List.append_assoc]
        congr 1
        rw [hsub]
        have hfe : (fun j => (i + 1) * B + j * B) = fun j => i * B + B + j * B := by
          funext j
          rw [Nat.succ_mul]
        rw [hfe]
        conv_rhs => rw [range_map_mul_shift]
        rfl
      rw [IdFetchRun.mk.injEq]
      exact ⟨hids, hoffs⟩

/-- Claim C1: against a mock service holding `ids`, served in pages of
at most `B` identifiers, `get_object_ids` returns exactly `ids` in
arrival order; the offsets requested are `0, B, 2B, ...`, each exactly
once (no offset is re-requested, and the loop stops at the first short
or empty page); the number of requests is `ceil (N / B)` when the last
page is short and `N / B + 1` when `N` is an exact multiple of `B` (the
service then returns an empty final page). -/
theorem C1_identifier_pagination (ids : List Int) (B : Nat) (hB : 0 < B) :
    (∀ (svc : Nat → Except Unit (List Int)) (batch fuel offset : Nat)
        (acc : List Int) (offs : List Nat) (b : Int) (bs : List Int),
      svc offset = .ok (b :: bs) → ¬ (b :: bs).length < batch →
      get_object_ids_loop svc batch (fuel + 1) offset acc offs
        = get_object_ids_loop svc batch fuel (offset + (b :: bs).length)
            (acc ++ (b :: bs)) (offs ++ [offset])) ∧
    (get_object_ids (pageService ids B) B (ids.length + 1)).ids = ids ∧
    (get_object_ids (pageService ids B) B (ids.length + 1)).offsets
      = (List.range (ids.length / B + 1)).map (fun j => j * B) ∧
    (get_object_ids (pageService ids B) B (ids.length + 1)).offsets.length
      = (if B ∣ ids.length then ids.length / B + 1 else (ids.length + B - 1) / B) ∧
    (get_object_ids (pageService ids B) B (ids.length + 1)).offsets.Nodup := by
  have hfuel : (ids.length - 0) / B + 1 ≤ ids.length + 1 := by
    rw [Nat.sub_zero]
    have := Nat.div_le_self ids.length B
    omega
  have hrun := get_object_ids_loop_page ids B hB (ids.length + 1) 0 [] [] hfuel
  have h1 : get_object_ids (pageService ids B) B (ids.length + 1)
      = ⟨ids, (List.range (ids.length / B + 1)).map (fun j => j * B)⟩ := by
    rw [get_object_ids, hrun]
    simp
  refine ⟨?_, by rw [h1], by rw [h1], ?_, ?_⟩
  · intro svc batch fuel offset acc offs b bs hsvc hfull
    have hfull2 : ¬ bs.length + 1 < batch := by simpa using hfull
    simp [get_object_ids_loop, hsvc, hfull2]
  · rw [h1]
    simp only [List.length_map, List.length_range]
    by_cases hd : B ∣ ids.length
    · simp [hd]
    · rw [if_neg hd]
      obtain ⟨q, r, hqr, hrB⟩ : ∃ q r, ids.length = B * q + r ∧ r < B :=
        ⟨ids.length / B, ids.length % B, (Nat.div_add_mod _ _).symm, Nat.mod_lt _ hB⟩
      have hr0 : r ≠ 0 := by
        intro h0
        exact hd ⟨q, by omega⟩
      have hdivq : ids.length / B = q := by
        rw [hqr, Nat.mul_add_div hB, Nat.div_eq_of_lt hrB, Nat.add_zero]
      have hceil : (ids.length + B - 1) / B = q + 1 := by
        have hBq : B * (q + 1) = B * q + B := by ring
        have h2 : ids.length + B - 1 = B * (q + 1) + (r - 1) := by omega
        rw [h2, Nat.mul_add_div hB, Nat.div_eq_of_lt (by omega), Nat.add_zero]
      rw [hdivq, hceil]
  · rw [h1]
    exact List.Nodup.map (fun a b hab => Nat.eq_of_mul_eq_mul_right hB hab)
      (List.nodup_range _)

/-- Witness for C1 with three identifiers and batch size two: two
requests, at offsets 0 and 2, returning all three identifiers. -/
theorem C1_identifier_pagination_witness :
    (get_object_ids (pageService [1, 2, 3] 2) 2 ([1, 2, 3].length + 1)).ids = [1, 2, 3] ∧
    (get_object_ids (pageService [1, 2, 3] 2) 2 ([1, 2, 3].length + 1)).offsets
      = (List.range ([1, 2, 3].length / 2 + 1)).map (fun j => j * 2) ∧
    get_object_ids_loop (fun _ => .ok [9, 8, 7]) 2 (0 + 1) 0 [] []
      = get_object_ids_loop (fun _ => .ok [9, 8, 7]) 2 0 (0 + ([9, 8, 7] : List Int).length)
          ([] ++ [9, 8, 7]) ([] ++ [0]) :=
  ⟨(C1_identifier_pagination [1, 2, 3] 2 (by norm_num)).2.1,
   (C1_identifier_pagination [1, 2, 3] 2 (by norm_num)).2.2.1,
   (C1_identifier_pagination [1, 2, 3] 2 (by norm_num)).1
     (fun _ => .ok [9, 8, 7]) 2 0 0 [] [] 9 [8, 7] rfl (by norm_num)⟩

/-- Counterexample to the surfacing half of claim C4: a run that aborts
on a transport failure (after one full page of two identifiers) returns
a value identical to the run of a successfully completed retrieval of
the same two identifiers — even the requested offsets coincide — so the
partial result is not distinguishable from a complete one. -/
theorem C4_partial_indistinguishable :
    get_object_ids (failingPageService [1, 2] 2 2) 2 3
      = get_object_ids (pageService [1, 2] 2) 2 3 := by
  rfl

/-- Claim C4 (amended): a transport failure at any offset aborts the
pagination loop immediately, and the accumulated identifiers gathered
before the failure are returned; however the returned value is a plain
identifier list carrying no incompleteness marker (the failure is only
shown as a UI error message), so it can coincide with a complete
result. -/
theorem C4_transport_failure_aborts :
    (∀ (svc : Nat → Except Unit (List Int)) (B offset fuel : Nat)
        (acc : List Int) (offs : List Nat),
      svc offset = .error () →
      get_object_ids_loop svc B (fuel + 1) offset acc offs = ⟨acc, offs ++ [offset]⟩) ∧
    (∀ (ids : List Int) (B m : Nat), 0 < B → m * B ≤ ids.length →
      get_object_ids (failingPageService ids B (m * B)) B (m + 1) =
        ⟨ids.take (m * B), (List.range (m + 1)).map (fun j => j * B)⟩) := by
  constructor
  · intro svc B offset fuel acc offs hsvc
    simp [get_object_ids_loop, hsvc]
  · intro ids B m hB hm
    have h := get_object_ids_loop_failing ids B m hB hm (m + 1) 0 [] []
      (Nat.zero_le m) (by omega)
    simp only [Nat.zero_mul, List.drop_zero, Nat.sub_zero, List.nil_append,
      Nat.zero_add] at h
    rw [get_object_ids]
    simpa using h

/-- Witness for C4: a service failing at the very first request returns
the empty accumulator, and the mock failing at offset 2 after one full
page of batch size 2 returns exactly the first two identifiers. -/
theorem C4_transport_failure_aborts_witness :
    get_object_ids_loop (fun _ => .error ()) 2 (0 + 1) 0 [] [] = ⟨[], [] ++ [0]⟩ ∧
    get_object_ids (failingPageService [1, 2, 3] 2 (1 * 2)) 2 (1 + 1)
      = ⟨[1, 2, 3].take (1 * 2), (List.range (1 + 1)).map (fun j => j * 2)⟩ :=
  ⟨C4_transport_failure_aborts.1 _ 2 0 0 [] [] rfl,
   C4_transport_failure_aborts.2 [1, 2, 3] 2 1 (by norm_num) (by norm_num)⟩

/-- Claim C7: for every diameter `d`, `calculate_protection_radius d`
equals 5 when `d ≤ 5` and `5 + (d - 5)` when `d > 5`; the function is
total by construction, monotone non-decreasing, and both branch
expressions agree (value exactly 5) at the `d = 5` boundary. -/
theorem C7_protection_radius :
    (∀ d : ℚ, d ≤ 5 → calculate_protection_radius d = 5) ∧
    (∀ d : ℚ, 5 < d → calculate_protection_radius d = 5 + (d - 5)) ∧
    (∀ d e : ℚ, d ≤ e → calculate_protection_radius d ≤ calculate_protection_radius e) ∧
    calculate_protection_radius 5 = 5 ∧ (5 : ℚ) + (5 - 5) = 5 := by
  refine ⟨?_, ?_, ?_, by norm_num [calculate_protection_radius], by norm_num⟩
  · intro d hd
    simp [calculate_protection_radius, hd]
  · intro d hd
    rw [calculate_protection_radius, if_neg (by linarith)]
  · intro d e hde
    unfold calculate_protection_radius
    split <;> split <;> linarith

/-- Witness for C7 at concrete diameters 3, 9 and the pair (2, 8). -/
theorem C7_protection_radius_witness :
    calculate_protection_radius 3 = 5 ∧ calculate_protection_radius 9 = 5 + (9 - 5) ∧
    calculate_protection_radius 2 ≤ calculate_protection_radius 8 :=
  ⟨C7_protection_radius.1 3 (by norm_num), C7_protection_radius.2.1 9 (by norm_num),
   C7_protection_radius.2.2.1 2 8 (by norm_num)⟩

/-- Claim C9: for every diameter, including zero and negative values,
the protection radius is at least 5 — the 5-foot minimum holds
unconditionally and no radius is ever negative. -/
theorem C9_minimum_radius (d : ℚ) : 5 ≤ calculate_protection_radius d := by
  unfold calculate_protection_radius
  split <;> linarith

/-- Claim C8: every field of the normalized record is looked up through
the two-candidate fallback chain of the source, and the documented
default is substituted when both candidate keys are absent: in
particular diameter defaults to 0 when neither `DIAMETER` nor
`diameter` is present, and the site identifier chain is `site_id`, then
`OBJECTID`, then `"Unknown"`; first-candidate hits take priority over
the fallback key. -/
theorem C8_normalization_defaults :
    (∀ props c0 c1 rest, props.lookup "DIAMETER" = none → props.lookup "diameter" = none →
      (normalizeFeature ⟨some (c0 :: c1 :: rest), props⟩).map NormalizedTreeRecord.diameter
        = .ok (.num 0)) ∧
    (∀ props c0 c1 rest, props.lookup "site_id" = none → props.lookup "OBJECTID" = none →
      (normalizeFeature ⟨some (c0 :: c1 :: rest), props⟩).map NormalizedTreeRecord.site_id
        = .ok (.str "Unknown")) ∧
    (∀ props c0 c1 rest v, props.lookup "DIAMETER" = some v →
      (normalizeFeature ⟨some (c0 :: c1 :: rest), props⟩).map NormalizedTreeRecord.diameter
        = .ok v) ∧
    (∀ props c0 c1 rest v, props.lookup "DIAMETER" = none → props.lookup "diameter" = some v →
      (normalizeFeature ⟨some (c0 :: c1 :: rest), props⟩).map NormalizedTreeRecord.diameter
        = .ok v) ∧
    (∀ props c0 c1 rest v, props.lookup "site_id" = some v →
      (normalizeFeature ⟨some (c0 :: c1 :: rest), props⟩).map NormalizedTreeRecord.site_id
        = .ok v) ∧
    (∀ props c0 c1 rest v, props.lookup "site_id" = none → props.lookup "OBJECTID" = some v →
      (normalizeFeature ⟨some (c0 :: c1 :: rest), props⟩).map NormalizedTreeRecord.site_id
        = .ok v) ∧
    (∀ props c0 c1 rest, props.lookup "SPP_COM" = none →
      props.lookup "species_common" = none →
      (normalizeFeature ⟨some (c0 :: c1 :: rest), props⟩).map NormalizedTreeRecord.species_common
        = .ok (.str "Unknown")) ∧
    (∀ props c0 c1 rest, props.lookup "SPP_BOT" = none →
      props.lookup "species_botanical" = none →
      (normalizeFeature ⟨some (c0 :: c1 :: rest), props⟩).map
        NormalizedTreeRecord.species_botanical = .ok (.str "Unknown")) ∧
    (∀ props c0 c1 rest, props.lookup "STATUS" = none → props.lookup "status" = none →
      (normalizeFeature ⟨some (c0 :: c1 :: rest), props⟩).map NormalizedTreeRecord.status
        = .ok (.str "Unknown")) ∧
    (∀ props c0 c1 rest, props.lookup "OBJECTID" = none → props.lookup "object_id" = none →
      (normalizeFeature ⟨some (c0 :: c1 :: rest), props⟩).map NormalizedTreeRecord.object_id
        = .ok .null) := by
  refine ⟨?_, ?_, ?_, ?_, ?_, ?_, ?_, ?_, ?_, ?_⟩ <;>
    · intro props c0 c1 rest
      intros
      simp [normalizeFeature, dictGet2, Except.map, *]

/-- Witness for C8 on a feature with an empty property dict. -/
theorem C8_normalization_defaults_witness :
    (normalizeFeature ⟨some [1, 2], []⟩).map NormalizedTreeRecord.diameter
      = .ok (.num 0) ∧
    (normalizeFeature ⟨some [1, 2], []⟩).map NormalizedTreeRecord.site_id
      = .ok (.str "Unknown") :=
  ⟨C8_normalization_defaults.1 [] 1 2 [] rfl rfl,
   C8_normalization_defaults.2.1 [] 1 2 [] rfl rfl⟩

/-- Counterexample to claim C5 as stated: in a two-feature collection
whose first feature has an empty coordinate list, `process_geojson_data`
aborts with `MalformedGeometry` and yields no records at all, even
though the second feature is well-formed and normalizes on its own. -/
theorem C5_collection_abort_counterexample :
    process_geojson_data
        [⟨some [], [("DIAMETER", .num 6)]⟩, ⟨some [1, 2], [("DIAMETER", .num 7)]⟩]
      = .error .MalformedGeometry ∧
    normalizeFeature ⟨some [1, 2], [("DIAMETER", .num 7)]⟩
      = .ok ⟨1, 2, .num 7, .str "Unknown", .str "Unknown", .str "Unknown",
             .str "Unknown", .null⟩ := by
  exact ⟨rfl, rfl⟩

/-- Claim C5 (amended): a feature whose coordinate pair is missing or
has fewer than two components fails to normalize with
`MalformedGeometry`, and the failure is not isolated to that feature:
whenever any feature of a collection fails to normalize,
`process_geojson_data` returns `MalformedGeometry` for the whole
collection, producing no records for the remaining well-formed
features. -/
theorem C5_malformed_geometry :
    (∀ f : RawFeature,
      (f.coordinates = none ∨ ∃ c, f.coordinates = some c ∧ c.length < 2) →
      normalizeFeature f = .error .MalformedGeometry) ∧
    (∀ l : List RawFeature, (∃ f ∈ l, normalizeFeature f = .error .MalformedGeometry) →
      process_geojson_data l = .error .MalformedGeometry) := by
  constructor
  · rintro ⟨co, props⟩ (h | ⟨c, hc, hlen⟩)
    · simp only at h
      subst h
      rfl
    · simp only at hc
      subst hc
      rcases c with _ | ⟨x0, _ | ⟨x1, xs⟩⟩
      · rfl
      · rfl
      · simp at hlen
        omega
  · intro l
    induction l with
    | nil => rintro ⟨f, hf, _⟩; simp at hf
    | cons f rest ih =>
      rintro ⟨g, hg, hgerr⟩
      cases hnf : normalizeFeature f with
      | error e =>
        cases e
        simp [process_geojson_data, hnf]
      | ok r =>
        have hgrest : g ∈ rest := by
          rcases List.mem_cons.1 hg with h | h
          · subst h; rw [hnf] at hgerr; exact absurd hgerr (by simp)
          · exact h
        have := ih ⟨g, hgrest, hgerr⟩
        simp [process_geojson_data, hnf, this]

/-- Witness for C5 (amended) at a concrete short-coordinate feature and
a concrete collection whose second feature is malformed. -/
theorem C5_malformed_geometry_witness :
    normalizeFeature ⟨some [3], []⟩ = .error .MalformedGeometry ∧
    process_geojson_data [⟨some [1, 2], []⟩, ⟨none, []⟩] = .error .MalformedGeometry :=
  ⟨C5_malformed_geometry.1 ⟨some [3], []⟩ (Or.inr ⟨[3], rfl, by norm_num⟩),
   C5_malformed_geometry.2 _ ⟨⟨none, []⟩, by simp, rfl⟩⟩

/-- Closed form of the chunk loop: the accumulated features are the
concatenation, in order, of each chunk response's contribution; every
chunk is requested; progress is updated exactly for the chunks whose
response arrived without a transport failure. -/
lemma features_loop_spec {α : Type} (svc : Nat → List Int → Except Unit (Option (List α)))
    (total : Nat) (l : List (Nat × List Int)) :
    features_loop svc total l =
      ((l.map (fun p => respFeatures (svc p.1 p.2))).flatten,
       l.map Prod.snd,
       (l.filter (fun p => respOk (svc p.1 p.2))).map (fun p => (p.1 + 1, total))) := by
  induction l with
  | nil => rfl
  | cons p rest ih =>
    obtain ⟨i, chunk⟩ := p
    cases hs : svc i chunk with
    | error e =>
      cases e
      simp [features_loop, hs, ih, respFeatures, respOk]
    | ok o =>
      cases o with
      | none => simp [features_loop, hs, ih, respFeatures, respOk]
      | some fs => simp [features_loop, hs, ih, respFeatures, respOk]

/-- Closed form of `get_features_by_ids` in terms of the chunk list. -/
lemma get_features_by_ids_eq {α : Type}
    (svc : Nat → List Int → Except Unit (Option (List α))) (object_ids : List Int) :
    get_features_by_ids svc object_ids =
      ⟨"FeatureCollection",
       ((chunkList FEATURE_BATCH_SIZE object_ids).enum.map
         (fun p => respFeatures (svc p.1 p.2))).flatten,
       (chunkList FEATURE_BATCH_SIZE object_ids).enum.map Prod.snd,
       ((chunkList FEATURE_BATCH_SIZE object_ids).enum.filter
         (fun p => respOk (svc p.1 p.2))).map
         (fun p => (p.1 + 1, (chunkList FEATURE_BATCH_SIZE object_ids).length))⟩ := by
  rw [get_features_by_ids]
  rw [features_loop_spec]

lemma chunkList_length {α : Type} (C : Nat) (l : List α) :
    (chunkList C l).length = (l.length + C - 1) / C := by
  simp [chunkList]

lemma chunkList_mem_length_le {α : Type} (C : Nat) (l : List α) (ch : List α)
    (h : ch ∈ chunkList C l) : ch.length ≤ C := by
  simp only [chunkList, List.mem_map, List.mem_range] at h
  obtain ⟨j, _, rfl⟩ := h
  exact List.length_take_le _ _

/-- Ceiling-division recurrence underlying the chunk count. -/
lemma ceil_div_succ (C len : Nat) (hC : 0 < C) (hlen : 0 < len) :
    (len + C - 1) / C = ((len - C) + C - 1) / C + 1 := by
  by_cases hle : len ≤ C
  · have h0 : len - C = 0 := by omega
    have h1 : len + C - 1 = (len - 1) + C := by omega
    rw [h0, h1, Nat.add_div_right _ hC, Nat.div_eq_of_lt (by omega),
      Nat.div_eq_of_lt (by omega)]
  · push_neg at hle
    have h1 : len + C - 1 = (len - 1) + C := by omega
    have h2 : (len - C) + C - 1 = len - 1 := by omega
    rw [h1, Nat.add_div_right _ hC, h2]

/-- Peeling one chunk off the front of the chunk list. -/
lemma chunkList_cons_step {α : Type} (C : Nat) (hC : 0 < C) (l : List α) (hl : l ≠ []) :
    chunkList C l = l.take C :: chunkList C (l.drop C) := by
  have hlen : 0 < l.length := List.length_pos.2 hl
  rw [chunkList, chunkList, List.length_drop]
  rw [ceil_div_succ C l.length hC hlen]
  rw [List.range_succ_eq_map, List.map_cons, List.map_map]
  have hf : ((fun j => (l.drop (j * C)).take C) ∘ Nat.succ)
      = fun j => ((l.drop C).drop (j * C)).take C := by
    funext j
    simp only [Function.comp_apply, Nat.succ_mul, List.drop_drop]
    congr 2
    omega
  rw [hf]
  simp

/-- The chunks concatenate back to the original identifier list. -/
lemma chunkList_join {α : Type} (C : Nat) (hC : 0 < C) (l : List α) :
    (chunkList C l).flatten = l := by
  suffices h : ∀ (n : Nat) (l : List α), l.length ≤ n → (chunkList C l).flatten = l from
    h l.length l le_rfl
  intro n
  induction n with
  | zero =>
    intro l hl
    have hnil : l = [] := by
      cases l with
      | nil => rfl
      | cons a as => simp at hl
    subst hnil
    simp [chunkList, Nat.div_eq_of_lt (show C - 1 < C by omega)]
  | succ n ih =>
    intro l hl
    rcases eq_or_ne l [] with rfl | hne
    · simp [chunkList, Nat.div_eq_of_lt (show C - 1 < C by omega)]
    · rw [chunkList_cons_step C hC l hne, List.flatten_cons,
        ih (l.drop C) (by simp [List.length_drop]; omega)]
      exact List.take_append_drop C l

/-- Claim C2: a failed chunk request does not abort the retrieval: for
every identifier list and every service behaviour, each chunk is
requested (failed chunks are skipped and the loop continues with the
next one), and the returned collection is exactly the concatenation, in
chunk order, of the features of the successful chunks — features of
failed chunks are silently omitted. -/
theorem C2_failed_chunk_skip {α : Type}
    (svc : Nat → List Int → Except Unit (Option (List α))) (ids : List Int) :
    (get_features_by_ids svc ids).features =
      ((chunkList FEATURE_BATCH_SIZE ids).enum.map
        (fun p => respFeatures (svc p.1 p.2))).flatten ∧
    (get_features_by_ids svc ids).requested = chunkList FEATURE_BATCH_SIZE ids ∧
    (get_features_by_ids svc ids).collectionType = "FeatureCollection" := by
  rw [get_features_by_ids_eq]
  exact ⟨rfl, List.enum_map_snd _, rfl⟩

/-- Claim C3: the chunking of the batched feature fetch is a proper
partition: with `M` identifiers and chunk size `C > 0` there are
exactly `ceil (M / C)` chunks, each of length at most `C`, and their
concatenation is the input identifier sequence; `get_features_by_ids`
requests exactly those chunks with `C = FEATURE_BATCH_SIZE = 100`. -/
theorem C3_chunk_partition (svc : Nat → List Int → Except Unit (Option (List Int)))
    (ids : List Int) (C : Nat) (hC : 0 < C) :
    (chunkList C ids).length = (ids.length + C - 1) / C ∧
    (∀ ch ∈ chunkList C ids, ch.length ≤ C) ∧
    (chunkList C ids).flatten = ids ∧
    FEATURE_BATCH_SIZE = 100 ∧
    (get_features_by_ids svc ids).requested = chunkList FEATURE_BATCH_SIZE ids ∧
    (get_features_by_ids svc ids).requested.length
      = (ids.length + FEATURE_BATCH_SIZE - 1) / FEATURE_BATCH_SIZE := by
  have hreq : (get_features_by_ids svc ids).requested = chunkList FEATURE_BATCH_SIZE ids := by
    rw [get_features_by_ids_eq]
    exact List.enum_map_snd _
  refine ⟨chunkList_length C ids, fun ch hch => chunkList_mem_length_le C ids ch hch,
    chunkList_join C hC ids, rfl, hreq, ?_⟩
  rw [hreq, chunkList_length]

/-- Witness for C3 at three identifiers and chunk size two. -/
theorem C3_chunk_partition_witness :
    (chunkList 2 ([10, 20, 30] : List Int)).length = ([10, 20, 30].length + 2 - 1) / 2 ∧
    (chunkList 2 ([10, 20, 30] : List Int)).flatten = [10, 20, 30] ∧
    (get_features_by_ids (fun _ ch => Except.ok (some ch)) [10, 20, 30]).requested.length
      = ([10, 20, 30].length + FEATURE_BATCH_SIZE - 1) / FEATURE_BATCH_SIZE := by
  have h := C3_chunk_partition (fun _ ch => Except.ok (some ch)) [10, 20, 30] 2 (by norm_num)
  exact ⟨h.1, h.2.2.1, h.2.2.2.2.2⟩

/-- Claim C10: called with an empty identifier list,
`get_features_by_ids` issues zero requests and returns the empty
FeatureCollection with no progress updates (the chunk list is empty, so
the loop body never runs); moreover every progress denominator ever
evaluated is the number of chunks and is positive, so the progress
division can never divide by zero. -/
theorem C10_empty_ids_no_requests {α : Type}
    (svc : Nat → List Int → Except Unit (Option (List α))) :
    get_features_by_ids svc ([] : List Int) = ⟨"FeatureCollection", [], [], []⟩ ∧
    chunkList FEATURE_BATCH_SIZE ([] : List Int) = [] ∧
    (∀ (ids : List Int) (p : Nat × Nat),
      p ∈ (get_features_by_ids svc ids).progress → 0 < p.2) := by
  refine ⟨rfl, rfl, ?_⟩
  intro ids p hp
  rw [get_features_by_ids_eq] at hp
  simp only at hp
  obtain ⟨q, hq, rfl⟩ := List.mem_map.1 hp
  have hqenum : q ∈ (chunkList FEATURE_BATCH_SIZE ids).enum := List.mem_of_mem_filter hq
  have hpos : 0 < (chunkList FEATURE_BATCH_SIZE ids).enum.length :=
    List.length_pos.2 (List.ne_nil_of_mem hqenum)
  simpa [List.enum_length] using hpos

/-- Witness for C10: the empty-input equation for a concrete service,
and the progress-denominator bound at the singleton input `[5]`, whose
only progress entry is `(1, 1)`. -/
theorem C10_empty_ids_no_requests_witness :
    get_features_by_ids (fun _ _ => Except.ok (some [(7 : Int)])) ([] : List Int)
      = ⟨"FeatureCollection", [], [], []⟩ ∧
    0 < ((1, 1) : Nat × Nat).2 :=
  ⟨(C10_empty_ids_no_requests (fun _ _ => Except.ok (some [(7 : Int)]))).1,
   (C10_empty_ids_no_requests (fun _ _ => Except.ok (some [(7 : Int)]))).2.2 [5] (1, 1)
     (by decide)⟩

/-- Counterexample to the result half of claim C6: when the identifier
fetch yields no identifiers, the handler stores nothing at all
(modelled as `none`) — it does not hand an empty FeatureCollection
onward. -/
theorem C6_no_empty_collection_stored :
    load_madison_tree_data (fun _ => Except.ok []) (fun _ _ => Except.ok (some [(1 : Int)])) 1
      = none ∧
    (none : Option (FeatureFetchRun Int)) ≠ some ⟨"FeatureCollection", [], [], []⟩ := by
  exact ⟨rfl, by simp⟩

/-- Claim C6 (amended): when the identifier fetch returns an empty
identifier sequence, the handler short-circuits without invoking the
batched feature fetcher — its outcome is independent of the feature
service, so no feature request can influence it — but it hands no
collection onward: it displays a warning and stores nothing (`none`)
rather than an empty FeatureCollection. -/
theorem C6_empty_ids_short_circuit {α : Type}
    (svcIds : Nat → Except Unit (List Int))
    (svcF : Nat → List Int → Except Unit (Option (List α))) (fuel : Nat)
    (h : (get_object_ids svcIds OBJECT_ID_BATCH_SIZE fuel).ids = []) :
    load_madison_tree_data svcIds svcF fuel = none ∧
    ∀ (svcG : Nat → List Int → Except Unit (Option (List α))),
      load_madison_tree_data svcIds svcG fuel = load_madison_tree_data svcIds svcF fuel := by
  constructor
  · simp [load_madison_tree_data, h]
  · intro svcG
    simp [load_madison_tree_data, h]

/-- Witness for C6 at a service that returns no identifiers. -/
theorem C6_empty_ids_short_circuit_witness :
    load_madison_tree_data (fun _ => Except.ok []) (fun _ _ => Except.ok (some [(1 : Int)])) 3
      = none :=
  (C6_empty_ids_short_circuit (fun _ => Except.ok [])
    (fun _ _ => Except.ok (some [(1 : Int)])) 3 rfl).1

end TreeProtection
